import Mathlib

/-!
Verification of the `static-arc` shared-ownership primitive (src/src/lib.rs).

The crate hands a value to a statically known number `N` of owners
(`StaticArc` handles), all pointing at one heap cell `StaticArcInner`
holding an atomic counter and the manually managed value.  The embedding
below translates the cell, the handle operations and the teardown protocol
into pure Lean functions over an explicit batch state, and a step relation
over that state gives the trace semantics used for the invariant and
temporal claims.
-/

namespace StaticArcSpec

/-- Memory orderings of the host's atomic facility, as named by the source
(`std::sync::atomic::Ordering`). -/
inductive MemOrdering where
  | seqCst
  | acqRel
  | acquire
  | release
  | relaxed
deriving DecidableEq, Repr

/-- Atomic load of the counter.  In this sequential embedding the load
returns the stored value; the ordering argument records which ordering the
call site requested. -/
def atomicLoad (_ord : MemOrdering) (n : Nat) : Nat := n

/-- Atomic `fetch_sub k`: returns the pair (prior value, new stored value).
The source only ever subtracts from a counter that is at least 1 (one per
live handle), so the truncated subtraction on `Nat` agrees with the
wrapping `usize` subtraction at every reachable call. -/
def atomicFetchSub (_ord : MemOrdering) (n : Nat) (k : Nat) : Nat × Nat :=
  (n, n - k)

/-- The heap cell `StaticArcInner<T>` (lib.rs lines 11-14): the atomic
live counter and the manually-dropped value. -/
structure StaticArcInner (T : Type) where
  counter : Nat
  value : T
deriving Repr, DecidableEq

/-- The ordering requested by the counter load in `StaticArc::live`
(lib.rs line 65). -/
def live_load_ordering : MemOrdering := MemOrdering.seqCst

/-- The ordering requested by the `fetch_sub` in `Drop::drop` for
`StaticArc` (lib.rs line 113). -/
def drop_fetch_sub_ordering : MemOrdering := MemOrdering.seqCst

/-- Observable state of one construction batch.  All `StaticArc` handles of
a batch store the same `inner` pointer, so individual handles carry no data
of their own and the state tracks how many are alive.  `cell` is the
pointee while the backing `Box` is allocated and `none` after it has been
freed.  The last three fields count irreversible events, so that
exactly-once finalization is expressible: `valueDrops` counts runs of the
value's destructor in place (`ManuallyDrop::drop`), `moves` counts
extractions of the value by `ptr::read` during reclamation, `deallocs`
counts frees of the cell's `Box`, and `allocs` counts `Box::new` calls. -/
structure SysState (T : Type) where
  handles : Nat
  cell : Option (StaticArcInner T)
  valueDrops : Nat
  moves : Nat
  deallocs : Nat
  allocs : Nat
deriving Repr

/-- The counter currently stored in the batch's cell, or 0 once the cell
has been deallocated (no load ever happens then; reachable states keep the
cell allocated while any handle is alive). -/
def counterOf {T : Type} (s : SysState T) : Nat :=
  match s.cell with
  | some c => c.counter
  | none => 0

namespace StaticArc

/-- `StaticArc::live` (lib.rs lines 63-66): a `SeqCst` load of the cell's
counter. -/
def live {T : Type} (c : StaticArcInner T) : Nat :=
  atomicLoad live_load_ordering c.counter

/-- `StaticArc::try_as_ref_mut` (lib.rs lines 68-75): if `live()` observes
1, hand out access to the value, else `None`.  The method borrows `self`
and performs no write, so it is a pure function of the cell. -/
def try_as_ref_mut {T : Type} (c : StaticArcInner T) : Option T :=
  if live c = 1 then some c.value else none

/-- A call of `try_as_ref_mut` through a live handle of batch state `s`:
the method takes `&self` and only loads the counter, so the batch state
comes back unchanged next to the call's result. -/
def try_as_ref_mut_call {T : Type} (s : SysState T) : Option T × SysState T :=
  match s.cell with
  | some c => (try_as_ref_mut c, s)
  | none => (none, s)

/-- `StaticArc::new_recover` (lib.rs lines 24-55) produces the initial
batch state: `N` handles all pointing at one freshly boxed cell whose
counter is stamped with `N`. -/
def initState {T : Type} (value : T) (N : Nat) : SysState T :=
  { handles := N
    cell := some { counter := N, value := value }
    valueDrops := 0
    moves := 0
    deallocs := 0
    allocs := 1 }

/-- `StaticArc::new_recover` (lib.rs lines 24-55): if `N < 1` the input
value is returned as the error before anything is allocated; otherwise one
cell is boxed and the full batch of `N` handles is produced. -/
def new_recover {T : Type} (value : T) (N : Nat) : Except T (SysState T) :=
  if N < 1 then
    Except.error value
  else
    Except.ok (initState value N)

/-- Number of heap allocations `new_recover` performs for a given `N`
(lib.rs lines 24-32): the `N < 1` early return happens before the single
`Box::new`. -/
def new_recover_allocs (N : Nat) : Nat :=
  if N < 1 then 0 else 1

/-- `Deref::deref` for `StaticArc` (lib.rs lines 103-109): any live handle
reads the shared cell's value. -/
def deref {T : Type} (s : SysState T) : Option T :=
  match s.cell with
  | some c => some c.value
  | none => none

/-- `Drop::drop` for `StaticArc` (lib.rs lines 111-125): a `SeqCst`
`fetch_sub(1)`; if the prior value was 1 this handle additionally drops
the value in place and frees the cell's box.  The dropped handle ceases to
exist either way.  (The `none` branch is unreachable through a live
handle: the cell outlives its handles.) -/
def drop {T : Type} (s : SysState T) : SysState T :=
  match s.cell with
  | none => s
  | some c =>
    let fs := atomicFetchSub drop_fetch_sub_ordering c.counter 1
    if fs.1 = 1 then
      { handles := s.handles - 1
        cell := none
        valueDrops := s.valueDrops + 1
        moves := s.moves
        deallocs := s.deallocs + 1
        allocs := s.allocs }
    else
      { handles := s.handles - 1
        cell := some { counter := fs.2, value := c.value }
        valueDrops := s.valueDrops
        moves := s.moves
        deallocs := s.deallocs
        allocs := s.allocs }

/-- `StaticArc::try_into_inner_recover` (lib.rs lines 82-100): on a
successful `try_as_ref_mut` check the value is read out of the cell, the
box is freed without running the value's destructor, and the consumed
handle is forgotten (`mem::forget`), so no decrement ever follows; on
failure `Err(self)` hands the handle back and nothing changes. -/
def try_into_inner_recover {T : Type} (s : SysState T) :
    Except Unit T × SysState T :=
  match s.cell with
  | none => (Except.error (), s)
  | some c =>
    match try_as_ref_mut c with
    | some value =>
        (Except.ok value,
         { handles := s.handles - 1
           cell := none
           valueDrops := s.valueDrops
           moves := s.moves + 1
           deallocs := s.deallocs + 1
           allocs := s.allocs })
    | none => (Except.error (), s)

/-- `StaticArc::try_into_inner` (lib.rs lines 77-80):
`self.try_into_inner_recover().ok()`.  Converting the `Result` with
`ok()` discards the `Err(self)` payload, which runs the handle's ordinary
`Drop::drop`. -/
def try_into_inner {T : Type} (s : SysState T) : Option T × SysState T :=
  match try_into_inner_recover s with
  | (Except.ok v, s') => (some v, s')
  | (Except.error _, s') => (none, StaticArc.drop s')

end StaticArc

/-- One API call through some live handle of the batch.  Every constructor
requires a live handle to call through; `ofQuery` covers the read-only
operations (`deref`, `live`, `try_as_ref_mut`), which leave the state
unchanged. -/
inductive Step {T : Type} : SysState T → SysState T → Prop where
  | ofDrop (s : SysState T) : 1 ≤ s.handles → Step s (StaticArc.drop s)
  | ofReclaim (s : SysState T) : 1 ≤ s.handles →
      Step s (StaticArc.try_into_inner_recover s).2
  | ofIntoInner (s : SysState T) : 1 ≤ s.handles →
      Step s (StaticArc.try_into_inner s).2
  | ofQuery (s : SysState T) : 1 ≤ s.handles → Step s s

/-- States reachable from `s0` by any sequence of API calls. -/
inductive Reachable {T : Type} (s0 : SysState T) : SysState T → Prop where
  | refl : Reachable s0 s0
  | step {s s' : SysState T} : Reachable s0 s → Step s s' → Reachable s0 s'


/- Equation lemmas: the result of each operation on each branch of the
source, characterized by the cell's contents. -/

theorem drop_none {T : Type} {s : SysState T} (hc : s.cell = none) :
    StaticArc.drop s = s := by
  unfold StaticArc.drop
  rw [hc]

theorem drop_final {T : Type} {s : SysState T} {c : StaticArcInner T}
    (hc : s.cell = some c) (h1 : c.counter = 1) :
    StaticArc.drop s =
      { handles := s.handles - 1, cell := none
        valueDrops := s.valueDrops + 1, moves := s.moves
        deallocs := s.deallocs + 1, allocs := s.allocs } := by
  unfold StaticArc.drop
  rw [hc]
  simp [atomicFetchSub, h1]

theorem drop_dec {T : Type} {s : SysState T} {c : StaticArcInner T}
    (hc : s.cell = some c) (h1 : c.counter ≠ 1) :
    StaticArc.drop s =
      { handles := s.handles - 1
        cell := some { counter := c.counter - 1, value := c.value }
        valueDrops := s.valueDrops, moves := s.moves
        deallocs := s.deallocs, allocs := s.allocs } := by
  unfold StaticArc.drop
  rw [hc]
  simp [atomicFetchSub, h1]

theorem try_as_ref_mut_call_some {T : Type} {s : SysState T}
    {c : StaticArcInner T} (hc : s.cell = some c) :
    StaticArc.try_as_ref_mut_call s = (StaticArc.try_as_ref_mut c, s) := by
  unfold StaticArc.try_as_ref_mut_call
  rw [hc]

theorem reclaim_none {T : Type} {s : SysState T} (hc : s.cell = none) :
    StaticArc.try_into_inner_recover s = (Except.error (), s) := by
  unfold StaticArc.try_into_inner_recover
  rw [hc]

theorem reclaim_ok {T : Type} {s : SysState T} {c : StaticArcInner T}
    (hc : s.cell = some c) (h1 : c.counter = 1) :
    StaticArc.try_into_inner_recover s =
      (Except.ok c.value,
       { handles := s.handles - 1, cell := none
         valueDrops := s.valueDrops, moves := s.moves + 1
         deallocs := s.deallocs + 1, allocs := s.allocs }) := by
  unfold StaticArc.try_into_inner_recover
  rw [hc]
  simp [StaticArc.try_as_ref_mut, StaticArc.live, atomicLoad, h1]

theorem reclaim_err {T : Type} {s : SysState T} {c : StaticArcInner T}
    (hc : s.cell = some c) (h1 : c.counter ≠ 1) :
    StaticArc.try_into_inner_recover s = (Except.error (), s) := by
  unfold StaticArc.try_into_inner_recover
  rw [hc]
  simp [StaticArc.try_as_ref_mut, StaticArc.live, atomicLoad, h1]

theorem intoInner_none {T : Type} {s : SysState T} (hc : s.cell = none) :
    StaticArc.try_into_inner s = (none, s) := by
  unfold StaticArc.try_into_inner
  rw [reclaim_none hc]
  simp [drop_none hc]

theorem intoInner_ok {T : Type} {s : SysState T} {c : StaticArcInner T}
    (hc : s.cell = some c) (h1 : c.counter = 1) :
    StaticArc.try_into_inner s =
      (some c.value,
       { handles := s.handles - 1, cell := none
         valueDrops := s.valueDrops, moves := s.moves + 1
         deallocs := s.deallocs + 1, allocs := s.allocs }) := by
  unfold StaticArc.try_into_inner
  rw [reclaim_ok hc h1]

theorem intoInner_dec {T : Type} {s : SysState T} {c : StaticArcInner T}
    (hc : s.cell = some c) (h1 : c.counter ≠ 1) :
    StaticArc.try_into_inner s = (none, StaticArc.drop s) := by
  unfold StaticArc.try_into_inner
  rw [reclaim_err hc h1]

/-- Batch invariant: while the cell is allocated its counter equals the
number of live handles, at least one handle is alive, the value is the one
stored at construction and no finalization has happened; once the cell is
gone, no handle survives and exactly one finalization (an in-place value
drop or a reclamation move) and exactly one deallocation have happened. -/
def Inv {T : Type} (v : T) (s : SysState T) : Prop :=
  s.allocs = 1 ∧
  (∀ c : StaticArcInner T, s.cell = some c →
      c.counter = s.handles ∧ 1 ≤ s.handles ∧ c.value = v ∧
      s.valueDrops = 0 ∧ s.moves = 0 ∧ s.deallocs = 0) ∧
  (s.cell = none →
      s.handles = 0 ∧ s.valueDrops + s.moves = 1 ∧ s.deallocs = 1)

theorem inv_init {T : Type} (v : T) (N : Nat) (hN : 1 ≤ N) :
    Inv v (StaticArc.initState v N) := by
  refine ⟨rfl, ?_, ?_⟩
  · intro c h
    injection h with h
    subst h
    exact ⟨rfl, hN, rfl, rfl, rfl, rfl⟩
  · intro h
    exact absurd h (by simp [StaticArc.initState])

theorem inv_step {T : Type} {v : T} {s s' : SysState T}
    (hinv : Inv v s) (hstep : Step s s') : Inv v s' := by
  obtain ⟨ha, hsome, hnone⟩ := hinv
  cases hstep with
  | ofDrop hl =>
    cases hc : s.cell with
    | none =>
      rw [drop_none hc]
      exact ⟨ha, hsome, hnone⟩
    | some c =>
      obtain ⟨hcnt, hh, hv, hd, hm, hde⟩ := hsome c hc
      by_cases h1 : c.counter = 1
      · rw [drop_final hc h1]
        refine ⟨ha, ?_, ?_⟩
        · intro c' h
          simp at h
        · intro _
          refine ⟨?_, ?_, ?_⟩
          · show s.handles - 1 = 0
            omega
          · show s.valueDrops + 1 + s.moves = 1
            omega
          · show s.deallocs + 1 = 1
            omega
      · rw [drop_dec hc h1]
        refine ⟨ha, ?_, ?_⟩
        · intro c' h
          injection h with h
          subst h
          refine ⟨?_, ?_, hv, hd, hm, hde⟩
          · show c.counter - 1 = s.handles - 1
            omega
          · show 1 ≤ s.handles - 1
            omega
        · intro h
          simp at h
  | ofReclaim hl =>
    cases hc : s.cell with
    | none =>
      rw [reclaim_none hc]
      exact ⟨ha, hsome, hnone⟩
    | some c =>
      obtain ⟨hcnt, hh, hv, hd, hm, hde⟩ := hsome c hc
      by_cases h1 : c.counter = 1
      · rw [reclaim_ok hc h1]
        refine ⟨ha, ?_, ?_⟩
        · intro c' h
          simp at h
        · intro _
          refine ⟨?_, ?_, ?_⟩
          · show s.handles - 1 = 0
            omega
          · show s.valueDrops + (s.moves + 1) = 1
            omega
          · show s.deallocs + 1 = 1
            omega
      · rw [reclaim_err hc h1]
        exact ⟨ha, hsome, hnone⟩
  | ofIntoInner hl =>
    cases hc : s.cell with
    | none =>
      rw [intoInner_none hc]
      exact ⟨ha, hsome, hnone⟩
    | some c =>
      obtain ⟨hcnt, hh, hv, hd, hm, hde⟩ := hsome c hc
      by_cases h1 : c.counter = 1
      · rw [intoInner_ok hc h1]
        refine ⟨ha, ?_, ?_⟩
        · intro c' h
          simp at h
        · intro _
          refine ⟨?_, ?_, ?_⟩
          · show s.handles - 1 = 0
            omega
          · show s.valueDrops + (s.moves + 1) = 1
            omega
          · show s.deallocs + 1 = 1
            omega
      · rw [intoInner_dec hc h1]
        rw [drop_dec hc h1]
        refine ⟨ha, ?_, ?_⟩
        · intro c' h
          injection h with h
          subst h
          refine ⟨?_, ?_, hv, hd, hm, hde⟩
          · show c.counter - 1 = s.handles - 1
            omega
          · show 1 ≤ s.handles - 1
            omega
        · intro h
          simp at h
  | ofQuery hl =>
    exact ⟨ha, hsome, hnone⟩

theorem reachable_inv {T : Type} {v : T} {N : Nat} (hN : 1 ≤ N)
    {s : SysState T} (hr : Reachable (StaticArc.initState v N) s) :
    Inv v s := by
  induction hr with
  | refl => exact inv_init v N hN
  | step _ hstep ih => exact inv_step ih hstep

/-- Monotonicity of the counter under any single API call: no operation of
the primitive ever increases the stored live count. -/
theorem counterOf_step_le {T : Type} {s s' : SysState T} (hstep : Step s s') :
    counterOf s' ≤ counterOf s := by
  cases hstep with
  | ofDrop hl =>
    cases hc : s.cell with
    | none => rw [drop_none hc]
    | some c =>
      by_cases h1 : c.counter = 1
      · rw [drop_final hc h1]
        simp [counterOf]
      · rw [drop_dec hc h1]
        simp [counterOf, hc]
  | ofReclaim hl =>
    cases hc : s.cell with
    | none => rw [reclaim_none hc]
    | some c =>
      by_cases h1 : c.counter = 1
      · rw [reclaim_ok hc h1]
        simp [counterOf]
      · rw [reclaim_err hc h1]
  | ofIntoInner hl =>
    cases hc : s.cell with
    | none => rw [intoInner_none hc]
    | some c =>
      by_cases h1 : c.counter = 1
      · rw [intoInner_ok hc h1]
        simp [counterOf]
      · rw [intoInner_dec hc h1]
        rw [drop_dec hc h1]
        simp [counterOf, hc]
  | ofQuery hl =>
    exact Nat.le_refl _

/- Concrete batch states used by the witnesses: a sole-owner batch holding
42, and a two-owner batch holding 7. -/

def wsSolo : SysState Nat :=
  { handles := 1, cell := some { counter := 1, value := 42 }
    valueDrops := 0, moves := 0, deallocs := 0, allocs := 1 }

def wsPair : SysState Nat :=
  { handles := 2, cell := some { counter := 2, value := 7 }
    valueDrops := 0, moves := 0, deallocs := 0, allocs := 1 }

/-- C1: `try_into_inner_recover` succeeds if and only if the counter loaded
by `live` equals 1 at the call; on success it returns the value stored in
the cell, and on failure it returns the handle with the whole batch state —
counter and value included — unchanged, so the caller can retry. -/
theorem c1_reclaim_iff_sole_owner {T : Type} (s : SysState T)
    (c : StaticArcInner T) (hc : s.cell = some c) :
    ((StaticArc.try_into_inner_recover s).1.isOk ↔ StaticArc.live c = 1) ∧
    (StaticArc.live c = 1 →
      (StaticArc.try_into_inner_recover s).1 = Except.ok c.value) ∧
    (StaticArc.live c ≠ 1 →
      StaticArc.try_into_inner_recover s = (Except.error (), s)) := by
  have hlive : StaticArc.live c = c.counter := rfl
  by_cases h1 : c.counter = 1
  · rw [reclaim_ok hc h1]
    simp [hlive, h1, Except.isOk, Except.toBool]
  · rw [reclaim_err hc h1]
    simp [hlive, h1, Except.isOk, Except.toBool]

/-- Witness for C1 at the sole-owner state `wsSolo`. -/
theorem c1_reclaim_iff_sole_owner_w :
    (StaticArc.try_into_inner_recover wsSolo).1 = Except.ok 42 :=
  (c1_reclaim_iff_sole_owner wsSolo { counter := 1, value := 42 } rfl).2.1 rfl

/-- C2: along every trace of the primitive, the value is finalized (dropped
in place by the last ordinary drop, or moved out by a successful
reclamation) at most once and the cell is deallocated at most once; once no
handle is left alive, exactly one finalization and exactly one deallocation
have happened — never zero, never two.  Consumption without decrement after
a successful reclamation is built into the step for `mem::forget`. -/
theorem c2_exactly_once_finalization {T : Type} (v : T) (N : Nat)
    (hN : 1 ≤ N) (s : SysState T)
    (hr : Reachable (StaticArc.initState v N) s) :
    (s.valueDrops + s.moves ≤ 1 ∧ s.deallocs ≤ 1) ∧
    (s.handles = 0 → s.valueDrops + s.moves = 1 ∧ s.deallocs = 1) := by
  obtain ⟨ha, hsome, hnone⟩ := reachable_inv hN hr
  cases hc : s.cell with
  | none =>
    obtain ⟨h0, h1, h2⟩ := hnone hc
    exact ⟨⟨by omega, by omega⟩, fun _ => ⟨h1, h2⟩⟩
  | some c =>
    obtain ⟨hcnt, hh, hv, hd, hm, hde⟩ := hsome c hc
    exact ⟨⟨by omega, by omega⟩, fun h0 => absurd h0 (by omega)⟩

/-- Witness for C2: dropping the only handle of a fresh one-owner batch
finalizes the value exactly once and deallocates exactly once. -/
theorem c2_exactly_once_finalization_w :
    (StaticArc.drop (StaticArc.initState (42 : Nat) 1)).valueDrops +
      (StaticArc.drop (StaticArc.initState (42 : Nat) 1)).moves = 1 ∧
    (StaticArc.drop (StaticArc.initState (42 : Nat) 1)).deallocs = 1 :=
  (c2_exactly_once_finalization 42 1 (by decide)
      (StaticArc.drop (StaticArc.initState (42 : Nat) 1))
      (Reachable.step Reachable.refl
        (Step.ofDrop (StaticArc.initState (42 : Nat) 1) (by decide)))).2
    (by decide)

/-- C3: releasing a handle ordinarily decrements the counter by one and
removes the handle; if the decrement observed the prior value 1 it also
destructs the value in place and deallocates the cell, and on any other
prior value it does nothing further. -/
theorem c3_drop_decrements_and_last_finalizes {T : Type} (s : SysState T)
    (c : StaticArcInner T) (hc : s.cell = some c) (hge : 1 ≤ c.counter) :
    (StaticArc.drop s).handles = s.handles - 1 ∧
    counterOf (StaticArc.drop s) + 1 = c.counter ∧
    (c.counter = 1 →
      (StaticArc.drop s).cell = none ∧
      (StaticArc.drop s).valueDrops = s.valueDrops + 1 ∧
      (StaticArc.drop s).deallocs = s.deallocs + 1) ∧
    (c.counter ≠ 1 →
      (StaticArc.drop s).cell =
        some { counter := c.counter - 1, value := c.value } ∧
      (StaticArc.drop s).valueDrops = s.valueDrops ∧
      (StaticArc.drop s).moves = s.moves ∧
      (StaticArc.drop s).deallocs = s.deallocs) := by
  by_cases h1 : c.counter = 1
  · rw [drop_final hc h1]
    refine ⟨rfl, ?_, fun _ => ⟨rfl, rfl, rfl⟩, fun h => absurd h1 h⟩
    show 0 + 1 = c.counter
    omega
  · rw [drop_dec hc h1]
    refine ⟨rfl, ?_, fun h => absurd h h1, fun _ => ⟨rfl, rfl, rfl, rfl⟩⟩
    show c.counter - 1 + 1 = c.counter
    omega

/-- Witness for C3 at the two-owner state `wsPair`: a pure decrement. -/
theorem c3_drop_decrements_and_last_finalizes_w :
    (StaticArc.drop wsPair).handles = wsPair.handles - 1 ∧
    counterOf (StaticArc.drop wsPair) + 1 = 2 :=
  ⟨(c3_drop_decrements_and_last_finalizes wsPair
      { counter := 2, value := 7 } rfl (by decide)).1,
   (c3_drop_decrements_and_last_finalizes wsPair
      { counter := 2, value := 7 } rfl (by decide)).2.1⟩

/-- C4: `try_as_ref_mut` grants access to the value if and only if the
counter loaded by `live` equals 1 at the check, returns `none` otherwise,
and in either case leaves the batch state — counter and value included —
untouched. -/
theorem c4_try_as_ref_mut_iff_sole_owner {T : Type} (s : SysState T)
    (c : StaticArcInner T) (hc : s.cell = some c) :
    ((StaticArc.try_as_ref_mut_call s).1.isSome ↔ StaticArc.live c = 1) ∧
    (StaticArc.live c = 1 →
      (StaticArc.try_as_ref_mut_call s).1 = some c.value) ∧
    (StaticArc.try_as_ref_mut_call s).2 = s := by
  rw [try_as_ref_mut_call_some hc]
  have hlive : StaticArc.live c = c.counter := rfl
  by_cases h1 : c.counter = 1
  · simp [StaticArc.try_as_ref_mut, hlive, h1]
  · simp [StaticArc.try_as_ref_mut, hlive, h1]

/-- Witness for C4 at the sole-owner state `wsSolo`. -/
theorem c4_try_as_ref_mut_iff_sole_owner_w :
    (StaticArc.try_as_ref_mut_call wsSolo).1 = some 42 ∧
    (StaticArc.try_as_ref_mut_call wsSolo).2 = wsSolo :=
  ⟨(c4_try_as_ref_mut_iff_sole_owner wsSolo
      { counter := 1, value := 42 } rfl).2.1 rfl,
   (c4_try_as_ref_mut_iff_sole_owner wsSolo
      { counter := 1, value := 42 } rfl).2.2⟩

/-- C5: a batch starts with the counter stamped to the number `N ≥ 1` of
handles produced; in every reachable state the allocated cell's counter
equals the number of handles currently alive, and no API call ever
increases the counter. -/
theorem c5_counter_counts_live_handles {T : Type} (v : T) (N : Nat)
    (hN : 1 ≤ N) :
    StaticArc.new_recover v N = Except.ok (StaticArc.initState v N) ∧
    counterOf (StaticArc.initState v N) = N ∧
    (StaticArc.initState v N).handles = N ∧
    (∀ s, Reachable (StaticArc.initState v N) s →
      (∀ c : StaticArcInner T, s.cell = some c → c.counter = s.handles) ∧
      (∀ s', Step s s' → counterOf s' ≤ counterOf s)) := by
  refine ⟨?_, rfl, rfl, ?_⟩
  · unfold StaticArc.new_recover
    rw [if_neg (by omega)]
  · intro s hr
    exact ⟨fun c hcell => ((reachable_inv hN hr).2.1 c hcell).1,
           fun s' hstep => counterOf_step_le hstep⟩

/-- Witness for C5 at a fresh two-owner batch. -/
theorem c5_counter_counts_live_handles_w :
    counterOf (StaticArc.initState (3 : Nat) 2) = 2 ∧
    (StaticArc.initState (3 : Nat) 2).handles = 2 :=
  ⟨(c5_counter_counts_live_handles (3 : Nat) 2 (by decide)).2.1,
   (c5_counter_counts_live_handles (3 : Nat) 2 (by decide)).2.2.1⟩

/-- C6: for every `N ≥ 1`, construction succeeds, performs exactly one
allocation, stamps the counter with `N`, emits `N` handles, and reading
through any of the handles yields the stored value. -/
theorem c6_construct_yields_n_readers {T : Type} (v : T) (N : Nat)
    (hN : 1 ≤ N) :
    StaticArc.new_recover v N = Except.ok (StaticArc.initState v N) ∧
    (StaticArc.initState v N).handles = N ∧
    (StaticArc.initState v N).allocs = 1 ∧
    StaticArc.deref (StaticArc.initState v N) = some v := by
  refine ⟨?_, rfl, rfl, rfl⟩
  unfold StaticArc.new_recover
  rw [if_neg (by omega)]

/-- Witness for C6 at a three-owner batch holding 9. -/
theorem c6_construct_yields_n_readers_w :
    StaticArc.new_recover (9 : Nat) 3 =
      Except.ok (StaticArc.initState (9 : Nat) 3) ∧
    StaticArc.deref (StaticArc.initState (9 : Nat) 3) = some 9 :=
  ⟨(c6_construct_yields_n_readers (9 : Nat) 3 (by decide)).1,
   (c6_construct_yields_n_readers (9 : Nat) 3 (by decide)).2.2.2⟩

/-- C7: constructing with `N = 0` fails, handing the input value back
unchanged, and the early return happens before the single `Box::new`, so
no allocation is performed and a zero-owner cell can never exist. -/
theorem c7_construct_zero_fails_without_alloc {T : Type} (v : T) :
    StaticArc.new_recover v 0 = Except.error v ∧
    StaticArc.new_recover_allocs 0 = 0 :=
  ⟨rfl, rfl⟩

/-- C8: in any reachable state whose cell's counter is observed to be 1,
exactly one handle is alive — the observer itself — so no other party can
take any step; every API call that does not consume that handle leaves the
counter at 1, and both `try_as_ref_mut` and `try_into_inner_recover`
through that handle succeed. -/
theorem c8_sole_ownership_is_stable {T : Type} (v : T) (N : Nat)
    (hN : 1 ≤ N) (s : SysState T)
    (hr : Reachable (StaticArc.initState v N) s)
    (c : StaticArcInner T) (hc : s.cell = some c) (h1 : c.counter = 1) :
    s.handles = 1 ∧
    (StaticArc.try_as_ref_mut c).isSome ∧
    (StaticArc.try_into_inner_recover s).1.isOk ∧
    (∀ s', Step s s' → s'.handles = s.handles →
      ∃ c' : StaticArcInner T, s'.cell = some c' ∧ c'.counter = 1) := by
  obtain ⟨ha, hsome, hnone⟩ := reachable_inv hN hr
  obtain ⟨hcnt, hh, hv, hd, hm, hde⟩ := hsome c hc
  have hh1 : s.handles = 1 := by omega
  refine ⟨hh1, ?_, ?_, ?_⟩
  · simp [StaticArc.try_as_ref_mut, StaticArc.live, atomicLoad, h1]
  · rw [reclaim_ok hc h1]
    rfl
  · intro s' hstep hsame
    cases hstep with
    | ofDrop hl =>
      exfalso
      rw [drop_final hc h1] at hsame
      have : s.handles - 1 = s.handles := hsame
      omega
    | ofReclaim hl =>
      exfalso
      rw [reclaim_ok hc h1] at hsame
      have : s.handles - 1 = s.handles := hsame
      omega
    | ofIntoInner hl =>
      exfalso
      rw [intoInner_ok hc h1] at hsame
      have : s.handles - 1 = s.handles := hsame
      omega
    | ofQuery hl =>
      exact ⟨c, hc, h1⟩

/-- Witness for C8 at the fresh sole-owner batch holding 42. -/
theorem c8_sole_ownership_is_stable_w :
    (StaticArc.initState (42 : Nat) 1).handles = 1 ∧
    (StaticArc.try_into_inner_recover (StaticArc.initState (42 : Nat) 1)).1.isOk :=
  ⟨(c8_sole_ownership_is_stable (42 : Nat) 1 (by decide)
      (StaticArc.initState (42 : Nat) 1) Reachable.refl
      { counter := 1, value := 42 } rfl rfl).1,
   (c8_sole_ownership_is_stable (42 : Nat) 1 (by decide)
      (StaticArc.initState (42 : Nat) 1) Reachable.refl
      { counter := 1, value := 42 } rfl rfl).2.2.1⟩

/-- C9: the counter load behind the check-then-act sequences of
`try_as_ref_mut` and `try_into_inner_recover`, and the `fetch_sub` of the
ordinary teardown, all request sequentially-consistent ordering. -/
theorem c9_counter_ops_are_seq_cst :
    live_load_ordering = MemOrdering.seqCst ∧
    drop_fetch_sub_ordering = MemOrdering.seqCst ∧
    (∀ (T : Type) (c : StaticArcInner T),
      StaticArc.try_as_ref_mut c =
        if atomicLoad MemOrdering.seqCst c.counter = 1 then some c.value
        else none) :=
  ⟨rfl, rfl, fun _ _ => rfl⟩

/-- C10: `try_into_inner` returns exactly the option that
`try_into_inner_recover` followed by `Result::ok` yields; when the counter
is not 1 it returns `none` and, unlike the recover variant, the handle is
consumed by its ordinary teardown, which decrements the counter by one. -/
theorem c10_try_into_inner_refines_recover {T : Type} (s : SysState T)
    (c : StaticArcInner T) (hc : s.cell = some c) (hge : 1 ≤ c.counter) :
    (StaticArc.try_into_inner s).1 =
      (StaticArc.try_into_inner_recover s).1.toOption ∧
    (StaticArc.live c ≠ 1 →
      (StaticArc.try_into_inner s).1 = none ∧
      (StaticArc.try_into_inner s).2 = StaticArc.drop s ∧
      counterOf (StaticArc.try_into_inner s).2 + 1 = c.counter) := by
  have hlive : StaticArc.live c = c.counter := rfl
  by_cases h1 : c.counter = 1
  · rw [intoInner_ok hc h1, reclaim_ok hc h1]
    exact ⟨rfl, fun h => absurd h1 (by rwa [hlive] at h)⟩
  · rw [intoInner_dec hc h1, reclaim_err hc h1]
    refine ⟨rfl, fun _ => ⟨rfl, rfl, ?_⟩⟩
    rw [drop_dec hc h1]
    show c.counter - 1 + 1 = c.counter
    omega

/-- Witness for C10 at the two-owner state `wsPair`: reclamation fails and
the fallback teardown decrements the counter. -/
theorem c10_try_into_inner_refines_recover_w :
    (StaticArc.try_into_inner wsPair).1 = none ∧
    (StaticArc.try_into_inner wsPair).2 = StaticArc.drop wsPair :=
  ⟨((c10_try_into_inner_refines_recover wsPair
      { counter := 2, value := 7 } rfl (by decide)).2 (by decide)).1,
   ((c10_try_into_inner_refines_recover wsPair
      { counter := 2, value := 7 } rfl (by decide)).2 (by decide)).2.1⟩

end StaticArcSpec
